import Mathlib

/-!
# Verification of the bulk-lighthouse metric pipeline

A shallow embedding, in Lean 4, of the metric-extraction, normalization,
persistence and client-side aggregation logic of the `bulk-lighthouse`
dashboard, together with proofs of the specification's testable properties.

Conventions of the embedding:
* JavaScript numbers produced by the pipeline are modelled as rationals (`ℚ`);
  every value handled here is obtained from decimal display strings, so `ℚ`
  represents the intended magnitudes exactly.
* Timestamps (the numeric value of a parsed `Date`) are modelled as `Nat`.
* Optional / possibly-`undefined` fields are modelled as `Option`.
* The asynchronous external collaborators (the upstream PageSpeed fetch and
  the Supabase insert) are modelled by passing their outcome as an explicit
  parameter to the endpoint function.
-/

namespace BulkLighthouse

/-! ## Numeric parsing (`parseMetricValue`, route `POST`)

The route strips every character that is not an ASCII digit or a dot
(`value.replace(/[^0-9.]/g, '')`) and applies JavaScript `parseFloat`.
On a string of digits and dots, `parseFloat` reads the longest prefix of the
form `digits [ '.' digits ]` containing at least one digit and returns `NaN`
when there is none; `parseFloatQ` below models exactly that restricted
behaviour (the stripped input can contain no sign, exponent or whitespace).
-/

/-- The character class kept by `value.replace(/[^0-9.]/g, '')`. -/
def isDigitOrDot (c : Char) : Bool := c.isDigit || c == '.'

/-- The stripped string: every character not an ASCII digit or `.` removed. -/
def stripNonNumeric (s : String) : List Char := s.data.filter isDigitOrDot

/-- Value of a digit string read as a decimal integer. -/
def digitsToNat (cs : List Char) : Nat :=
  cs.foldl (fun n c => 10 * n + (c.toNat - '0'.toNat)) 0

/-- Value of a digit string read as a decimal fraction (`.d₁d₂…`). -/
def fracValue (cs : List Char) : ℚ := (digitsToNat cs : ℚ) / 10 ^ cs.length

/-- JavaScript `parseFloat` restricted to strings of digits and dots:
the longest prefix `digits [ '.' digits ]` with at least one digit is read;
`none` models `NaN`. -/
def parseFloatQ (cs : List Char) : Option ℚ :=
  let intPart := cs.takeWhile Char.isDigit
  match cs.dropWhile Char.isDigit with
  | '.' :: rest =>
      let fracPart := rest.takeWhile Char.isDigit
      if intPart.isEmpty && fracPart.isEmpty then none
      else some ((digitsToNat intPart : ℚ) + fracValue fracPart)
  | _ => if intPart.isEmpty then none else some (digitsToNat intPart)

/-- `parseMetricValue` from the analysis route: falsy or sentinel strings map
to `0`, otherwise strip non-numeric characters and `parseFloat`, with `NaN`
replaced by `0`. -/
def parseMetricValue (value : String) : ℚ :=
  if value == "" || value == "N/A" then 0
  else
    match parseFloatQ (stripNonNumeric value) with
    | none => 0
    | some q => q

/-! ## Metric extraction (route `POST`, result object)

The raw upstream JSON document is modelled by nested structures whose fields
are `Option`al exactly where the route uses optional chaining (`?.`).  The
`|| 'N/A'` fallback treats both an absent path and a falsy (empty-string)
value as unavailable.
-/

/-- One CrUX metric entry (`…metrics.X`), with its optional `category`. -/
structure CruxEntry where
  category : Option String
deriving DecidableEq

/-- The `loadingExperience.metrics` object. -/
structure LoadingMetrics where
  FIRST_CONTENTFUL_PAINT_MS : Option CruxEntry
  INTERACTION_TO_NEXT_PAINT : Option CruxEntry
deriving DecidableEq

/-- The `loadingExperience` object. -/
structure LoadingExperience where
  metrics : Option LoadingMetrics
deriving DecidableEq

/-- One Lighthouse audit (`…audits['x']`), with its optional `displayValue`. -/
structure Audit where
  displayValue : Option String
deriving DecidableEq

/-- The `lighthouseResult.audits` object, restricted to the five audits the
route reads. -/
structure Audits where
  firstContentfulPaint : Option Audit
  speedIndex : Option Audit
  largestContentfulPaint : Option Audit
  totalBlockingTime : Option Audit
  interactive : Option Audit
deriving DecidableEq

/-- The `lighthouseResult` object. -/
structure LighthouseDoc where
  audits : Option Audits
deriving DecidableEq

/-- The raw upstream response document, restricted to the paths the route
reads; any segment may be absent. -/
structure RawDoc where
  id : Option String
  loadingExperience : Option LoadingExperience
  lighthouseResult : Option LighthouseDoc
deriving DecidableEq

/-- A raw document with every tracked path absent. -/
def emptyRawDoc : RawDoc := ⟨none, none, none⟩

/-- Optional-chain lookup of `loadingExperience?.metrics?.FIRST_CONTENTFUL_PAINT_MS?.category`. -/
def cruxFcpPath (d : RawDoc) : Option String :=
  ((d.loadingExperience.bind LoadingExperience.metrics).bind
    LoadingMetrics.FIRST_CONTENTFUL_PAINT_MS).bind CruxEntry.category

/-- Optional-chain lookup of `loadingExperience?.metrics?.INTERACTION_TO_NEXT_PAINT?.category`. -/
def cruxInpPath (d : RawDoc) : Option String :=
  ((d.loadingExperience.bind LoadingExperience.metrics).bind
    LoadingMetrics.INTERACTION_TO_NEXT_PAINT).bind CruxEntry.category

/-- Optional-chain lookup of `lighthouseResult?.audits?.['first-contentful-paint']?.displayValue`. -/
def lhFcpPath (d : RawDoc) : Option String :=
  ((d.lighthouseResult.bind LighthouseDoc.audits).bind
    Audits.firstContentfulPaint).bind Audit.displayValue

/-- Optional-chain lookup of `lighthouseResult?.audits?.['speed-index']?.displayValue`. -/
def lhSiPath (d : RawDoc) : Option String :=
  ((d.lighthouseResult.bind LighthouseDoc.audits).bind
    Audits.speedIndex).bind Audit.displayValue

/-- Optional-chain lookup of `lighthouseResult?.audits?.['largest-contentful-paint']?.displayValue`. -/
def lhLcpPath (d : RawDoc) : Option String :=
  ((d.lighthouseResult.bind LighthouseDoc.audits).bind
    Audits.largestContentfulPaint).bind Audit.displayValue

/-- Optional-chain lookup of `lighthouseResult?.audits?.['total-blocking-time']?.displayValue`. -/
def lhTbtPath (d : RawDoc) : Option String :=
  ((d.lighthouseResult.bind LighthouseDoc.audits).bind
    Audits.totalBlockingTime).bind Audit.displayValue

/-- Optional-chain lookup of `lighthouseResult?.audits?.['interactive']?.displayValue`. -/
def lhTtiPath (d : RawDoc) : Option String :=
  ((d.lighthouseResult.bind LighthouseDoc.audits).bind
    Audits.interactive).bind Audit.displayValue

/-- The JavaScript fallback `x || 'N/A'` on an optionally-present string:
an absent value and the falsy empty string both become the sentinel. -/
def orNA : Option String → String
  | none => "N/A"
  | some s => if s == "" then "N/A" else s

/-- The seven extracted display fields of the route's `result` object. -/
structure ExtractedMetrics where
  cruxFcp : String
  cruxInp : String
  lhFcp : String
  lhSi : String
  lhLcp : String
  lhTbt : String
  lhTti : String
deriving DecidableEq

/-- Metric extraction: each of the seven tracked dot-paths is looked up with
optional chaining and defaulted to the sentinel via `|| 'N/A'`. -/
def extractMetrics (d : RawDoc) : ExtractedMetrics where
  cruxFcp := orNA (cruxFcpPath d)
  cruxInp := orNA (cruxInpPath d)
  lhFcp := orNA (lhFcpPath d)
  lhSi := orNA (lhSiPath d)
  lhLcp := orNA (lhLcpPath d)
  lhTbt := orNA (lhTbtPath d)
  lhTti := orNA (lhTtiPath d)

/-- A raw document whose `first-contentful-paint` audit is present but holds
the falsy empty display string. -/
def emptyDisplayDoc : RawDoc :=
  { id := none
    loadingExperience := none
    lighthouseResult := some ⟨some ⟨some ⟨some ""⟩, none, none, none, none⟩⟩ }

/-! ## The analysis endpoint (`POST` of the pagespeed route)

The endpoint's two asynchronous collaborators — the upstream PageSpeed fetch
and the Supabase insert — are modelled by passing their outcome explicitly.
`POSTrun` additionally records which side effects the handler performed, so
that "no upstream fetch is issued" and "exactly one insert of the normalized
record is attempted" are statable.
-/

/-- The parsed JSON request body `{url, strategy}`; each field may be absent
(`strategy` defaults to `"desktop"` on destructuring). -/
structure ReqBody where
  url : Option String
  strategy : Option String
deriving DecidableEq

/-- Outcome of `fetch` on the upstream API: a thrown network error, or an
HTTP response with success flag `ok` and a body that parses to a `RawDoc`
(`none` models `response.json()` throwing on a malformed body). -/
inductive FetchOutcome where
  | networkError
  | response (ok : Bool) (body : Option RawDoc)
deriving DecidableEq

/-- Outcome of the Supabase insert: the call throws (connection error),
returns an error object, or succeeds returning the inserted row with its
store-assigned identifier. -/
inductive DbOutcome where
  | connectionError
  | dbError
  | inserted (id : Int)
deriving DecidableEq

/-- The normalized numeric record the route inserts (`dbRecord`). -/
structure DbRecord where
  first_content_paint : ℚ
  speed_index : ℚ
  largest_content_paint : ℚ
  total_blocking_time : ℚ
  time_to_interactive : ℚ
  url : String
  device_strategy : String
deriving DecidableEq

/-- `dbRecord` as built by the route: each Lighthouse display string put
through `parseMetricValue`, plus the requested URL and strategy. -/
def mkDbRecord (m : ExtractedMetrics) (url strategy : String) : DbRecord where
  first_content_paint := parseMetricValue m.lhFcp
  speed_index := parseMetricValue m.lhSi
  largest_content_paint := parseMetricValue m.lhLcp
  total_blocking_time := parseMetricValue m.lhTbt
  time_to_interactive := parseMetricValue m.lhTti
  url := url
  device_strategy := strategy

/-- The JSON payload of a successful response: `{id, cruxMetrics,
lighthouseMetrics, databaseId?}`. -/
structure ResultPayload where
  id : Option String
  metrics : ExtractedMetrics
  databaseId : Option Int
deriving DecidableEq

/-- An HTTP response from the endpoint: an error with status code and
`{error: message}` body, or a 200 with the result payload. -/
inductive ApiResponse where
  | error (status : Nat) (message : String)
  | ok (payload : ResultPayload)
deriving DecidableEq

/-- Side effects performed by one run of the handler: whether the upstream
fetch was issued, and the record passed to the insert when one was
attempted (`none` = no insert attempted). -/
structure Effects where
  fetchIssued : Bool
  insertAttempted : Option DbRecord
deriving DecidableEq

/-- The endpoint handler. `body` is the result of `request.json()` (`none`
models a body that fails to parse, whose exception reaches the outer
`catch`); `fo` and `dbo` are the outcomes of the two external calls.
Mirrors the route: falsy `url` → 400; fetch error, non-`ok` status or
unparseable upstream body → the outer `catch` → 500; otherwise extract,
normalize, attempt the insert (its failure swallowed), and return 200 with
`databaseId` present exactly on insert success. -/
def POSTrun (body : Option ReqBody) (fo : FetchOutcome) (dbo : DbOutcome) :
    ApiResponse × Effects :=
  match body with
  | none => (.error 500 "Failed to fetch PageSpeed data", ⟨false, none⟩)
  | some b =>
    if b.url.getD "" == "" then
      (.error 400 "URL is required", ⟨false, none⟩)
    else
      match fo with
      | .networkError => (.error 500 "Failed to fetch PageSpeed data", ⟨true, none⟩)
      | .response ok doc =>
        if !ok then
          (.error 500 "Failed to fetch PageSpeed data", ⟨true, none⟩)
        else
          match doc with
          | none => (.error 500 "Failed to fetch PageSpeed data", ⟨true, none⟩)
          | some d =>
            let metrics := extractMetrics d
            let dbRecord := mkDbRecord metrics (b.url.getD "") (b.strategy.getD "desktop")
            let databaseId : Option Int :=
              match dbo with
              | .connectionError => none
              | .dbError => none
              | .inserted i => some i
            (.ok ⟨d.id, metrics, databaseId⟩, ⟨true, some dbRecord⟩)

/-- The endpoint's HTTP response (first component of `POSTrun`). -/
def POST (body : Option ReqBody) (fo : FetchOutcome) (dbo : DbOutcome) : ApiResponse :=
  (POSTrun body fo dbo).1

/-! ## CSV export formatting (`exportToCSV`)

`toFixed f` renders a number as a decimal numeral with exactly `f` digits
after the point; the numeral denotes `n / 10^f` where `n` is the integer
with `n / 10^f` closest to the value (ties to the larger `n`, i.e. round
half up for the non-negative values produced by normalization).
`toFixedVal` models the value denoted by that numeral. -/
def toFixedVal (f : Nat) (q : ℚ) : ℚ := (⌊q * 10 ^ f + 1 / 2⌋ : ℚ) / 10 ^ f

/-- The five numeric magnitudes denoted by one CSV row of `exportToCSV`:
second-denominated fields rendered with `toFixed(3)`, the millisecond field
with `toFixed(0)`. -/
def csvNumericFields (r : DbRecord) : List ℚ :=
  [toFixedVal 3 r.first_content_paint,
   toFixedVal 3 r.speed_index,
   toFixedVal 3 r.largest_content_paint,
   toFixedVal 0 r.total_blocking_time,
   toFixedVal 3 r.time_to_interactive]

/-! ## Client-side aggregation: records, sorting, filtering, grouping -/

/-- A stored metric record as read back from the history endpoint (the
`LighthouseResult` interface of `lib/supabase.ts`).  `created_at` is the
timestamp denoted by the stored ISO string (the numeric value of its parsed
`Date`); every field the components access defensively (`?.`, `|| 0`,
truthiness checks) is `Option`al. -/
structure LighthouseResult where
  id : Option Int
  created_at : Option Nat
  url : Option String
  device_strategy : Option String
  first_content_paint : Option ℚ
  speed_index : Option ℚ
  largest_content_paint : Option ℚ
  total_blocking_time : Option ℚ
  time_to_interactive : Option ℚ
deriving DecidableEq

/-- The six client-side sort fields (`SortField` in `ResultsHistory`). -/
inductive SortField where
  | created_at
  | first_content_paint
  | speed_index
  | largest_content_paint
  | total_blocking_time
  | time_to_interactive
deriving DecidableEq

/-- Sort direction (`SortDirection` in `ResultsHistory`). -/
inductive SortDirection where
  | asc
  | desc
deriving DecidableEq

/-- The comparison key of a record for a sort field: `created_at` is the
numeric value of `new Date(a.created_at || 0)`, a numeric field is
`a[field] || 0`. -/
def sortKey (field : SortField) (r : LighthouseResult) : ℚ :=
  match field with
  | .created_at => (r.created_at.getD 0 : Nat)
  | .first_content_paint => r.first_content_paint.getD 0
  | .speed_index => r.speed_index.getD 0
  | .largest_content_paint => r.largest_content_paint.getD 0
  | .total_blocking_time => r.total_blocking_time.getD 0
  | .time_to_interactive => r.time_to_interactive.getD 0

/-- The comparator of `sortResults`: `-1`/`1` on strict key inequality with
the direction deciding the sign, `0` otherwise. -/
def compareRecords (field : SortField) (dir : SortDirection)
    (a b : LighthouseResult) : Int :=
  if sortKey field a < sortKey field b then
    match dir with | .asc => -1 | .desc => 1
  else if sortKey field a > sortKey field b then
    match dir with | .asc => 1 | .desc => -1
  else 0

/-- `sortResults`: a stable sort of the collection under the comparator
(JavaScript `Array.prototype.sort` is specified stable; `mergeSort`, the
stable sort, with `cmp a b ≤ 0` as the precedence predicate models it). -/
def sortResults (data : List LighthouseResult) (field : SortField)
    (dir : SortDirection) : List LighthouseResult :=
  data.mergeSort fun a b => compareRecords field dir a b ≤ 0

/-- Modelled from the platform `URL` constructor (an external collaborator
of this code): for an `http://` or `https://` URL the hostname is the
authority segment up to the first `/`, `?`, `#` or `:`; a string without
such a scheme or with an empty authority fails to parse (`none` models the
constructor throwing). -/
def parseHostname (s : String) : Option String :=
  let rest :=
    if s.data.take 8 = "https://".data then some (s.data.drop 8)
    else if s.data.take 7 = "http://".data then some (s.data.drop 7)
    else none
  match rest with
  | none => none
  | some t =>
    let host := t.takeWhile fun c => !(c == '/' || c == '?' || c == '#' || c == ':')
    if host.isEmpty then none else some (String.mk host)

/-- The hostname of a record's URL: `none` when the `url` field is falsy or
`new URL(result.url)` would throw. -/
def recordHostname (r : LighthouseResult) : Option String :=
  match r.url with
  | none => none
  | some u => if u == "" then none else parseHostname u

/-- The website filter of `fetchResults`: with a (truthy) selected website,
keep exactly the records whose URL parses to that exact hostname; with no
selection, the identity. -/
def filterByWebsite (selectedWebsite : Option String)
    (rs : List LighthouseResult) : List LighthouseResult :=
  match selectedWebsite with
  | none => rs
  | some w =>
    if w == "" then rs
    else rs.filter fun r => recordHostname r == some w

/-- The device-strategy filter of `fetchResults`: for a filter other than
`"all"`, keep exactly the records whose `device_strategy` equals it. -/
def filterByStrategy (strategyFilter : String)
    (rs : List LighthouseResult) : List LighthouseResult :=
  if strategyFilter == "all" then rs
  else rs.filter fun r => r.device_strategy == some strategyFilter

/-- The most-recent-first comparator key used by `fetchWebsiteGroups`:
the numeric value of `new Date(created_at || 0)`. -/
def createdKey (r : LighthouseResult) : Int := r.created_at.getD 0

/-- One navigation group (`WebsiteGroup` in `Sidenav`). -/
structure WebsiteGroup where
  url : String
  domain : String
  count : Nat
  lastTested : Option Nat
  results : List LighthouseResult
deriving DecidableEq

/-- The JavaScript fallback `x || domain` on an optional URL. -/
def urlOrDefault (u : Option String) (d : String) : String :=
  match u with
  | none => d
  | some s => if s == "" then d else s

/-- Append a record to its domain's bucket, preserving the `Map`'s
key-insertion order (a new domain goes to the end). -/
def addToGroups (m : List (String × List LighthouseResult)) (d : String)
    (r : LighthouseResult) : List (String × List LighthouseResult) :=
  match m with
  | [] => [(d, [r])]
  | (d', rs) :: t =>
    if d = d' then (d', rs ++ [r]) :: t
    else (d', rs) :: addToGroups t d r

/-- Lookup of a domain's bucket in the group map (`groupMap.get(domain)`). -/
def lookupGroups : List (String × List LighthouseResult) → String → List LighthouseResult
  | [], _ => []
  | (d', g) :: t, d => if d = d' then g else lookupGroups t d

/-- One step of the `forEach` that fills `groupMap`: a record with a falsy
or unparseable URL is skipped, any other is appended to its domain's
bucket. -/
def stepGroup (m : List (String × List LighthouseResult)) (r : LighthouseResult) :
    List (String × List LighthouseResult) :=
  match recordHostname r with
  | none => m
  | some d => addToGroups m d r

/-- The `groupMap` of `fetchWebsiteGroups`: records are bucketed by hostname
in iteration order. -/
def buildGroupMap (rs : List LighthouseResult) :
    List (String × List LighthouseResult) :=
  rs.foldl stepGroup []

/-- Build one `WebsiteGroup` from a domain's bucket: sort most-recent-first,
take representative URL and `lastTested` from the first (most recent)
record, `count` from the bucket size. -/
def mkGroup (d : String) (grp : List LighthouseResult) : WebsiteGroup where
  url :=
    match (grp.mergeSort fun a b => createdKey b - createdKey a ≤ 0).head? with
    | none => d
    | some r => urlOrDefault r.url d
  domain := d
  count := grp.length
  lastTested :=
    ((grp.mergeSort fun a b => createdKey b - createdKey a ≤ 0).head?).bind
      LighthouseResult.created_at
  results := grp.mergeSort fun a b => createdKey b - createdKey a ≤ 0

/-- The group-level comparator of `fetchWebsiteGroups`:
`new Date(b.lastTested) - new Date(a.lastTested)`; when either group's
`lastTested` is the empty string the subtraction is `NaN`, which the sort
treats as `0`. -/
def compareGroups (g1 g2 : WebsiteGroup) : Int :=
  match g1.lastTested, g2.lastTested with
  | some a, some b => (b : Int) - a
  | _, _ => 0

/-- `fetchWebsiteGroups`' grouping: bucket by hostname, build each group,
and sort the groups by `lastTested`, most recent first. -/
def websiteGroups (rs : List LighthouseResult) : List WebsiteGroup :=
  ((buildGroupMap rs).map fun p => mkGroup p.1 p.2).mergeSort
    fun g1 g2 => compareGroups g1 g2 ≤ 0

/-- The numeric `lastTested` key of a group (every group built from records
with a present `created_at` carries `some` timestamp here). -/
def lastKeyInt (g : WebsiteGroup) : Int := g.lastTested.getD 0

/-- A concrete record for `https://a.com/x`, tested on desktop. -/
def recA : LighthouseResult :=
  ⟨some 1, some 100, some "https://a.com/x", some "desktop",
   some 1, some 2, some 3, some 4, some 5⟩

/-- A concrete record for `https://www.a.com/y`, tested on mobile. -/
def recB : LighthouseResult :=
  ⟨some 2, some 200, some "https://www.a.com/y", some "mobile",
   some 2, some 1, some 4, some 3, some 6⟩

end BulkLighthouse

namespace BulkLighthouse

/-! ## Theorems about numeric parsing and metric extraction -/

theorem fracValue_nonneg (cs : List Char) : 0 ≤ fracValue cs := by
  unfold fracValue; positivity

theorem parseFloatQ_nonneg (cs : List Char) : ∀ q ∈ parseFloatQ cs, 0 ≤ q := by
  intro q hq
  unfold parseFloatQ at hq
  split at hq <;> dsimp only at hq <;> split at hq <;>
    simp only [Option.mem_def, Option.some.injEq, reduceCtorEq] at hq
  · subst hq
    exact add_nonneg (Nat.cast_nonneg _) (fracValue_nonneg _)
  · subst hq
    exact Nat.cast_nonneg _

theorem parseMetricValue_nonneg (s : String) : 0 ≤ parseMetricValue s := by
  unfold parseMetricValue
  split
  · exact le_refl 0
  · split
    · exact le_refl 0
    · next q hq => exact parseFloatQ_nonneg _ q hq

theorem parseMetricValue_of_unparseable (s : String)
    (h : parseFloatQ (stripNonNumeric s) = none) : parseMetricValue s = 0 := by
  unfold parseMetricValue
  split
  · rfl
  · rw [h]

/-- C1: for every display-string input `s`, the numeric parse used by
normalization (strip every character that is not a digit or decimal point,
then parse as a float) returns a non-negative number; `parse "N/A" = 0`,
the parse of any string whose stripped form fails to parse is `0`, and
`parse "2.3 s" = 2.3`. -/
theorem claim_C1_parseMetricValue :
    (∀ s : String, 0 ≤ parseMetricValue s) ∧
    parseMetricValue "N/A" = 0 ∧
    (∀ s : String, parseFloatQ (stripNonNumeric s) = none → parseMetricValue s = 0) ∧
    parseMetricValue "2.3 s" = 2.3 := by
  refine ⟨parseMetricValue_nonneg, rfl, parseMetricValue_of_unparseable, ?_⟩
  have h : parseMetricValue "2.3 s" = (digitsToNat ['2'] : ℚ) + fracValue ['3'] := rfl
  have h2 : digitsToNat ['2'] = 2 := rfl
  have h3 : digitsToNat ['3'] = 3 := rfl
  rw [h, h2]
  unfold fracValue
  rw [h3]
  norm_num

/-- Closed instance of `claim_C1_parseMetricValue` at concrete inputs. -/
theorem claim_C1_witness :
    0 ≤ parseMetricValue "1.5 s" ∧ parseMetricValue "n o p e" = 0 :=
  ⟨claim_C1_parseMetricValue.1 "1.5 s",
   claim_C1_parseMetricValue.2.2.1 "n o p e" rfl⟩

/-- C2: for every raw API response document, with any subset of the seven
tracked dot-paths missing, metric extraction (a total function of the
document, so it never throws) sets every metric whose path has an absent
segment to exactly the sentinel `"N/A"`. -/
theorem claim_C2_extraction (d : RawDoc) :
    (cruxFcpPath d = none → (extractMetrics d).cruxFcp = "N/A") ∧
    (cruxInpPath d = none → (extractMetrics d).cruxInp = "N/A") ∧
    (lhFcpPath d = none → (extractMetrics d).lhFcp = "N/A") ∧
    (lhSiPath d = none → (extractMetrics d).lhSi = "N/A") ∧
    (lhLcpPath d = none → (extractMetrics d).lhLcp = "N/A") ∧
    (lhTbtPath d = none → (extractMetrics d).lhTbt = "N/A") ∧
    (lhTtiPath d = none → (extractMetrics d).lhTti = "N/A") := by
  refine ⟨?_, ?_, ?_, ?_, ?_, ?_, ?_⟩ <;>
    · intro h
      simp [extractMetrics, orNA, h]

/-- Closed instance of `claim_C2_extraction`: on the document with every
tracked path absent, all seven extracted metrics are the sentinel. -/
theorem claim_C2_witness :
    (extractMetrics emptyRawDoc).cruxFcp = "N/A" ∧
    (extractMetrics emptyRawDoc).cruxInp = "N/A" ∧
    (extractMetrics emptyRawDoc).lhFcp = "N/A" ∧
    (extractMetrics emptyRawDoc).lhSi = "N/A" ∧
    (extractMetrics emptyRawDoc).lhLcp = "N/A" ∧
    (extractMetrics emptyRawDoc).lhTbt = "N/A" ∧
    (extractMetrics emptyRawDoc).lhTti = "N/A" :=
  ⟨(claim_C2_extraction emptyRawDoc).1 rfl,
   (claim_C2_extraction emptyRawDoc).2.1 rfl,
   (claim_C2_extraction emptyRawDoc).2.2.1 rfl,
   (claim_C2_extraction emptyRawDoc).2.2.2.1 rfl,
   (claim_C2_extraction emptyRawDoc).2.2.2.2.1 rfl,
   (claim_C2_extraction emptyRawDoc).2.2.2.2.2.1 rfl,
   (claim_C2_extraction emptyRawDoc).2.2.2.2.2.2 rfl⟩

/-- C10: extraction substitutes the sentinel `"N/A"` for any falsy extracted
value, not only for absent paths: a tracked path that is present but holds
the empty string also yields `"N/A"`, and such a metric is then normalized
to zero. -/
theorem claim_C10_falsy_extraction (d : RawDoc) :
    (cruxFcpPath d = some "" → (extractMetrics d).cruxFcp = "N/A") ∧
    (cruxInpPath d = some "" → (extractMetrics d).cruxInp = "N/A") ∧
    (lhFcpPath d = some "" → (extractMetrics d).lhFcp = "N/A") ∧
    (lhSiPath d = some "" → (extractMetrics d).lhSi = "N/A") ∧
    (lhLcpPath d = some "" → (extractMetrics d).lhLcp = "N/A") ∧
    (lhTbtPath d = some "" → (extractMetrics d).lhTbt = "N/A") ∧
    (lhTtiPath d = some "" → (extractMetrics d).lhTti = "N/A") ∧
    (lhFcpPath d = some "" → parseMetricValue (extractMetrics d).lhFcp = 0) := by
  refine ⟨?_, ?_, ?_, ?_, ?_, ?_, ?_, ?_⟩ <;>
    · intro h
      simp [extractMetrics, orNA, h, parseMetricValue]

/-- Closed instance of `claim_C10_falsy_extraction`: a document whose
`first-contentful-paint` audit carries the empty display string extracts
to the sentinel, which normalizes to zero. -/
theorem claim_C10_witness :
    (extractMetrics emptyDisplayDoc).lhFcp = "N/A" ∧
    parseMetricValue (extractMetrics emptyDisplayDoc).lhFcp = 0 :=
  ⟨(claim_C10_falsy_extraction emptyDisplayDoc).2.2.1 rfl,
   (claim_C10_falsy_extraction emptyDisplayDoc).2.2.2.2.2.2.2 rfl⟩

/-! ## Theorems about the analysis endpoint -/

/-- C3: for every analysis request whose upstream fetch succeeds, a failing
store insert (thrown connection error or returned error) is swallowed and
the endpoint still returns HTTP 200 with the full metrics payload and no
`databaseId`; `databaseId` is present exactly when the insert succeeded, in
which case it equals the store-assigned identifier. -/
theorem claim_C3_persistence (b : ReqBody) (d : RawDoc)
    (hurl : b.url.getD "" ≠ "") :
    (POST (some b) (.response true (some d)) .connectionError =
      .ok ⟨d.id, extractMetrics d, none⟩) ∧
    (POST (some b) (.response true (some d)) .dbError =
      .ok ⟨d.id, extractMetrics d, none⟩) ∧
    (∀ i : Int, POST (some b) (.response true (some d)) (.inserted i) =
      .ok ⟨d.id, extractMetrics d, some i⟩) := by
  refine ⟨?_, ?_, fun i => ?_⟩ <;> simp [POST, POSTrun, hurl]

/-- Closed instance of `claim_C3_persistence` at a concrete request. -/
theorem claim_C3_witness :
    (POST (some ⟨some "https://example.com/", some "desktop"⟩)
        (.response true (some emptyRawDoc)) .connectionError =
      .ok ⟨none, extractMetrics emptyRawDoc, none⟩) ∧
    (POST (some ⟨some "https://example.com/", some "desktop"⟩)
        (.response true (some emptyRawDoc)) .dbError =
      .ok ⟨none, extractMetrics emptyRawDoc, none⟩) ∧
    (POST (some ⟨some "https://example.com/", some "desktop"⟩)
        (.response true (some emptyRawDoc)) (.inserted 42) =
      .ok ⟨none, extractMetrics emptyRawDoc, some 42⟩) :=
  have h := claim_C3_persistence ⟨some "https://example.com/", some "desktop"⟩
    emptyRawDoc (by decide)
  ⟨h.1, h.2.1, h.2.2 42⟩

/-- C4 is refuted as stated: here the upstream fetch succeeds with a
success HTTP status (its body merely fails to parse as JSON), yet the
request fails with the generic 500 error. -/
theorem claim_C4_counterexample :
    POST (some ⟨some "https://example.com/", some "desktop"⟩)
      (.response true none) (.inserted 1) =
      .error 500 "Failed to fetch PageSpeed data" := rfl

/-- C4 (amended): for a request whose body parses and carries a non-empty
`url`, the endpoint fails exactly when the upstream fetch throws, returns a
non-success status, or returns a body that fails to parse as JSON — always
with HTTP 500 and the body `{error: "Failed to fetch PageSpeed data"}` and
no partial metric data; a request body that fails to parse as JSON also
fails with that same response. -/
theorem claim_C4_amended (body : Option ReqBody) (fo : FetchOutcome) (dbo : DbOutcome) :
    (∀ b : ReqBody, body = some b → b.url.getD "" ≠ "" →
      (POST body fo dbo = .error 500 "Failed to fetch PageSpeed data" ↔
        fo = .networkError ∨ (∃ doc, fo = .response false doc) ∨
          fo = .response true none)) ∧
    (body = none → POST body fo dbo = .error 500 "Failed to fetch PageSpeed data") := by
  constructor
  · rintro b rfl hurl
    cases fo with
    | networkError => simp [POST, POSTrun, hurl]
    | response ok doc =>
      cases ok <;> cases doc <;> simp [POST, POSTrun, hurl]
  · rintro rfl
    rfl

/-- Closed instance of `claim_C4_amended`: a thrown upstream fetch at a
concrete valid request yields the generic 500 error. -/
theorem claim_C4_witness :
    POST (some ⟨some "https://example.com/", some "desktop"⟩)
      .networkError .connectionError =
      .error 500 "Failed to fetch PageSpeed data" :=
  ((claim_C4_amended (some ⟨some "https://example.com/", some "desktop"⟩)
      .networkError .connectionError).1
    ⟨some "https://example.com/", some "desktop"⟩ rfl (by decide)).mpr
    (Or.inl rfl)

/-- C9: a request whose parsed JSON body has a missing or empty (falsy)
`url` field gets HTTP 400 with `{error: "URL is required"}`, with no
upstream fetch issued and no store insert attempted, whatever the outcomes
of those external calls would have been. -/
theorem claim_C9_url_required (b : ReqBody) (fo : FetchOutcome) (dbo : DbOutcome)
    (h : b.url.getD "" = "") :
    POSTrun (some b) fo dbo = (.error 400 "URL is required", ⟨false, none⟩) := by
  simp [POSTrun, h]

/-- Closed instance of `claim_C9_url_required` at a concrete bodiless
request. -/
theorem claim_C9_witness :
    POSTrun (some ⟨none, none⟩) .networkError .connectionError =
      (.error 400 "URL is required", ⟨false, none⟩) :=
  claim_C9_url_required ⟨none, none⟩ .networkError .connectionError rfl

/-! ## Theorems about CSV export formatting -/

theorem toFixedVal_close (f : Nat) (q : ℚ) :
    |toFixedVal f q - q| ≤ 1 / (2 * 10 ^ f) := by
  have hp : (0:ℚ) < 10 ^ f := by positivity
  have h1 : (⌊q * 10 ^ f + 1 / 2⌋ : ℚ) ≤ q * 10 ^ f + 1 / 2 := Int.floor_le _
  have h2 : q * 10 ^ f + 1 / 2 - 1 < (⌊q * 10 ^ f + 1 / 2⌋ : ℚ) := Int.sub_one_lt_floor _
  have habs : |(⌊q * 10 ^ f + 1 / 2⌋ : ℚ) - q * 10 ^ f| ≤ 1 / 2 := by
    rw [abs_le]
    constructor <;> linarith
  have key : toFixedVal f q - q = ((⌊q * 10 ^ f + 1 / 2⌋ : ℚ) - q * 10 ^ f) / 10 ^ f := by
    unfold toFixedVal
    field_simp
    ring
  rw [key, abs_div, abs_of_pos hp, div_le_div_iff₀ hp (by positivity)]
  nlinarith [habs, hp.le]

/-- C8: for every display-string record, building the normalized record via
the numeric parse and re-displaying its fields through the CSV export
formatting preserves each numeric magnitude up to the stated decimal
precision: three decimals (half-ulp `1/2000`) for the second-denominated
fields and zero decimals (half-ulp `1/2`) for the millisecond field. -/
theorem claim_C8_roundtrip (m : ExtractedMetrics) (url strategy : String) :
    csvNumericFields (mkDbRecord m url strategy) =
      [toFixedVal 3 (parseMetricValue m.lhFcp), toFixedVal 3 (parseMetricValue m.lhSi),
       toFixedVal 3 (parseMetricValue m.lhLcp), toFixedVal 0 (parseMetricValue m.lhTbt),
       toFixedVal 3 (parseMetricValue m.lhTti)] ∧
    |toFixedVal 3 (parseMetricValue m.lhFcp) - parseMetricValue m.lhFcp| ≤ 1 / 2000 ∧
    |toFixedVal 3 (parseMetricValue m.lhSi) - parseMetricValue m.lhSi| ≤ 1 / 2000 ∧
    |toFixedVal 3 (parseMetricValue m.lhLcp) - parseMetricValue m.lhLcp| ≤ 1 / 2000 ∧
    |toFixedVal 0 (parseMetricValue m.lhTbt) - parseMetricValue m.lhTbt| ≤ 1 / 2 ∧
    |toFixedVal 3 (parseMetricValue m.lhTti) - parseMetricValue m.lhTti| ≤ 1 / 2000 := by
  refine ⟨rfl, ?_, ?_, ?_, ?_, ?_⟩
  · have h := toFixedVal_close 3 (parseMetricValue m.lhFcp)
    norm_num at h
    exact h
  · have h := toFixedVal_close 3 (parseMetricValue m.lhSi)
    norm_num at h
    exact h
  · have h := toFixedVal_close 3 (parseMetricValue m.lhLcp)
    norm_num at h
    exact h
  · have h := toFixedVal_close 0 (parseMetricValue m.lhTbt)
    norm_num at h
    exact h
  · have h := toFixedVal_close 3 (parseMetricValue m.lhTti)
    norm_num at h
    exact h

/-! ## Theorems about client-side sorting -/

theorem compareRecords_le_iff_asc (f : SortField) (a b : LighthouseResult) :
    compareRecords f .asc a b ≤ 0 ↔ sortKey f a ≤ sortKey f b := by
  unfold compareRecords
  rcases lt_trichotomy (sortKey f a) (sortKey f b) with h | h | h
  · simp [h, le_of_lt h]
  · simp [h, not_lt.mpr (le_of_eq h), le_of_eq h]
  · simp [not_lt.mpr (le_of_lt h), h, not_le.mpr h]

theorem compareRecords_le_iff_desc (f : SortField) (a b : LighthouseResult) :
    compareRecords f .desc a b ≤ 0 ↔ sortKey f b ≤ sortKey f a := by
  unfold compareRecords
  rcases lt_trichotomy (sortKey f a) (sortKey f b) with h | h | h
  · simp [h, not_le.mpr h]
  · simp [h, not_lt.mpr (le_of_eq h), le_of_eq h.symm]
  · simp [not_lt.mpr (le_of_lt h), h, le_of_lt h]

theorem compareRecords_trans (f : SortField) (dir : SortDirection) :
    ∀ a b c : LighthouseResult,
      compareRecords f dir a b ≤ 0 → compareRecords f dir b c ≤ 0 →
      compareRecords f dir a c ≤ 0 := by
  intro a b c hab hbc
  cases dir
  · rw [compareRecords_le_iff_asc] at hab hbc ⊢
    exact le_trans hab hbc
  · rw [compareRecords_le_iff_desc] at hab hbc ⊢
    exact le_trans hbc hab

theorem compareRecords_total (f : SortField) (dir : SortDirection) :
    ∀ a b : LighthouseResult,
      compareRecords f dir a b ≤ 0 ∨ compareRecords f dir b a ≤ 0 := by
  intro a b
  cases dir
  · rw [compareRecords_le_iff_asc, compareRecords_le_iff_asc]
    exact le_total _ _
  · rw [compareRecords_le_iff_desc, compareRecords_le_iff_desc]
    exact le_total _ _

theorem sortResults_pairwise (data : List LighthouseResult) (f : SortField)
    (dir : SortDirection) :
    List.Pairwise (fun a b => compareRecords f dir a b ≤ 0)
      (sortResults data f dir) := by
  have h := @List.sorted_mergeSort LighthouseResult
    (fun a b => decide (compareRecords f dir a b ≤ 0))
    (fun a b c hab hbc => by
      simp only [decide_eq_true_eq] at hab hbc ⊢
      exact compareRecords_trans f dir a b c hab hbc)
    (fun a b => by
      simp only [Bool.or_eq_true, decide_eq_true_eq]
      exact compareRecords_total f dir a b)
    data
  exact h.imp (by simp only [decide_eq_true_eq]; exact id)

theorem sortResults_of_pairwise (l : List LighthouseResult) (f : SortField)
    (dir : SortDirection)
    (h : List.Pairwise (fun a b => compareRecords f dir a b ≤ 0) l) :
    sortResults l f dir = l := by
  apply List.mergeSort_of_sorted
  exact h.imp (by simp only [decide_eq_true_eq]; exact id)

/-- C5: for every record collection, each of the six sort fields and both
directions, the client-side sort produces a monotonic sequence under the
stated comparison (`created_at` as a timestamp, numeric fields with missing
values as zero), it is a permutation of the input, and sorting again with
the same field and direction leaves an already-sorted sequence unchanged. -/
theorem claim_C5_sorting (data : List LighthouseResult) (field : SortField)
    (dir : SortDirection) :
    List.Pairwise (fun a b => compareRecords field dir a b ≤ 0)
      (sortResults data field dir) ∧
    (sortResults data field dir).Perm data ∧
    (dir = .asc → List.Pairwise
      (fun a b => sortKey field a ≤ sortKey field b) (sortResults data field dir)) ∧
    (dir = .desc → List.Pairwise
      (fun a b => sortKey field b ≤ sortKey field a) (sortResults data field dir)) ∧
    (∀ l : List LighthouseResult,
      List.Pairwise (fun a b => compareRecords field dir a b ≤ 0) l →
      sortResults l field dir = l) ∧
    sortResults (sortResults data field dir) field dir = sortResults data field dir := by
  refine ⟨sortResults_pairwise data field dir, List.mergeSort_perm data _, ?_, ?_,
    fun l => sortResults_of_pairwise l field dir, ?_⟩
  · rintro rfl
    exact (sortResults_pairwise data field .asc).imp
      fun h => (compareRecords_le_iff_asc field _ _).mp h
  · rintro rfl
    exact (sortResults_pairwise data field .desc).imp
      fun h => (compareRecords_le_iff_desc field _ _).mp h
  · exact sortResults_of_pairwise _ field dir (sortResults_pairwise data field dir)

/-- Closed instance of `claim_C5_sorting` at a concrete collection. -/
theorem claim_C5_witness :
    List.Pairwise
      (fun a b => compareRecords .speed_index .asc a b ≤ 0)
      (sortResults [recA, recB] .speed_index .asc) ∧
    (sortResults [recA, recB] .speed_index .asc).Perm [recA, recB] ∧
    sortResults [] .speed_index .asc = [] :=
  ⟨(claim_C5_sorting [recA, recB] .speed_index .asc).1,
   (claim_C5_sorting [recA, recB] .speed_index .asc).2.1,
   (claim_C5_sorting [recA, recB] .speed_index .asc).2.2.2.2.1 [] List.Pairwise.nil⟩

/-! ## Theorems about client-side filtering -/

/-- C7: the domain filter keeps exactly the records whose URL parses to a
hostname string-equal to the selected domain (malformed or absent URLs are
excluded, and `www.` is not normalized away: under selected domain `a.com`,
`https://a.com/x` matches and `https://www.a.com/y` does not); the
device-class filter keeps exactly the records with the selected label; no
selected filter is the identity transform. -/
theorem claim_C7_filtering :
    (∀ rs : List LighthouseResult, filterByWebsite none rs = rs) ∧
    (∀ rs : List LighthouseResult, filterByStrategy "all" rs = rs) ∧
    (∀ (rs : List LighthouseResult) (w : String) (r : LighthouseResult), w ≠ "" →
      (r ∈ filterByWebsite (some w) rs ↔ r ∈ rs ∧ recordHostname r = some w)) ∧
    (∀ (rs : List LighthouseResult) (sf : String) (r : LighthouseResult), sf ≠ "all" →
      (r ∈ filterByStrategy sf rs ↔ r ∈ rs ∧ r.device_strategy = some sf)) ∧
    parseHostname "https://a.com/x" = some "a.com" ∧
    parseHostname "https://www.a.com/y" = some "www.a.com" ∧
    filterByWebsite (some "a.com") [recA, recB] = [recA] := by
  refine ⟨fun rs => rfl, fun rs => rfl, ?_, ?_, rfl, rfl, rfl⟩
  · intro rs w r hw
    simp [filterByWebsite, hw, List.mem_filter]
  · intro rs sf r hsf
    simp [filterByStrategy, hsf, List.mem_filter]

/-- Closed instance of `claim_C7_filtering` at a concrete collection. -/
theorem claim_C7_witness :
    (filterByWebsite none [recA, recB] = [recA, recB]) ∧
    (recB ∈ filterByWebsite (some "www.a.com") [recA, recB] ↔
      recB ∈ [recA, recB] ∧ recordHostname recB = some "www.a.com") :=
  ⟨claim_C7_filtering.1 [recA, recB],
   claim_C7_filtering.2.2.1 [recA, recB] "www.a.com" recB (by decide)⟩


/-! ## Theorems about website grouping -/

theorem lookupGroups_addToGroups_self (m : List (String × List LighthouseResult))
    (d : String) (r : LighthouseResult) :
    lookupGroups (addToGroups m d r) d = lookupGroups m d ++ [r] := by
  induction m with
  | nil => simp [addToGroups, lookupGroups]
  | cons p t ih =>
    obtain ⟨d', g⟩ := p
    by_cases h : d = d'
    · subst h
      simp [addToGroups, lookupGroups]
    · simp [addToGroups, lookupGroups, h, ih]

theorem lookupGroups_addToGroups_ne (m : List (String × List LighthouseResult))
    (d d' : String) (r : LighthouseResult) (h : d ≠ d') :
    lookupGroups (addToGroups m d' r) d = lookupGroups m d := by
  induction m with
  | nil => simp [addToGroups, lookupGroups, h]
  | cons p t ih =>
    obtain ⟨d'', g⟩ := p
    by_cases h2 : d' = d''
    · subst h2
      simp [addToGroups, lookupGroups, h]
    · by_cases h3 : d = d''
      · subst h3
        simp [addToGroups, lookupGroups, h2, if_neg (Ne.symm h2)]
      · simp [addToGroups, lookupGroups, h2, h3, ih]

theorem keys_addToGroups (m : List (String × List LighthouseResult))
    (d : String) (r : LighthouseResult) :
    (addToGroups m d r).map Prod.fst =
      if d ∈ m.map Prod.fst then m.map Prod.fst else m.map Prod.fst ++ [d] := by
  induction m with
  | nil => simp [addToGroups]
  | cons p t ih =>
    obtain ⟨d', g⟩ := p
    by_cases h : d = d'
    · subst h
      simp [addToGroups]
    · simp only [addToGroups, if_neg h, List.map_cons, ih]
      by_cases hm : d ∈ t.map Prod.fst
      · simp [hm, List.mem_cons, h]
      · simp [hm, List.mem_cons, h]

theorem nodup_keys_addToGroups (m : List (String × List LighthouseResult))
    (d : String) (r : LighthouseResult) (h : (m.map Prod.fst).Nodup) :
    ((addToGroups m d r).map Prod.fst).Nodup := by
  rw [keys_addToGroups]
  split
  · exact h
  · next hd => simp [List.nodup_append, h, hd]

theorem nonempty_addToGroups (m : List (String × List LighthouseResult))
    (d : String) (r : LighthouseResult) (h : ∀ p ∈ m, p.2 ≠ []) :
    ∀ p ∈ addToGroups m d r, p.2 ≠ [] := by
  induction m with
  | nil =>
    intro p hp
    simp [addToGroups] at hp
    subst hp
    simp
  | cons q t ih =>
    obtain ⟨d', g⟩ := q
    intro p hp
    by_cases hd : d = d'
    · subst hd
      simp [addToGroups] at hp
      rcases hp with hp | hp
      · subst hp
        simp
      · exact h p (List.mem_cons_of_mem _ hp)
    · simp [addToGroups, hd] at hp
      rcases hp with hp | hp
      · subst hp
        exact h _ (List.mem_cons_self _ _)
      · exact ih (fun q hq => h q (List.mem_cons_of_mem _ hq)) p hp

theorem lookupGroups_eq_nil_of_not_mem_keys
    (m : List (String × List LighthouseResult)) (d : String)
    (h : d ∉ m.map Prod.fst) : lookupGroups m d = [] := by
  induction m with
  | nil => rfl
  | cons p t ih =>
    obtain ⟨d', g⟩ := p
    simp only [List.map_cons, List.mem_cons] at h
    push_neg at h
    simp [lookupGroups, h.1, ih h.2]

theorem exists_mem_of_mem_keys (m : List (String × List LighthouseResult))
    (d : String) (h : d ∈ m.map Prod.fst) : ∃ g, (d, g) ∈ m := by
  induction m with
  | nil => simp at h
  | cons p t ih =>
    obtain ⟨d', g⟩ := p
    simp only [List.map_cons, List.mem_cons] at h
    rcases h with h | h
    · subst h
      exact ⟨g, List.mem_cons_self _ _⟩
    · obtain ⟨g', hg'⟩ := ih h
      exact ⟨g', List.mem_cons_of_mem _ hg'⟩

theorem eq_lookup_of_mem (m : List (String × List LighthouseResult))
    (hnd : (m.map Prod.fst).Nodup) :
    ∀ d g, (d, g) ∈ m → g = lookupGroups m d := by
  induction m with
  | nil => simp
  | cons p t ih =>
    obtain ⟨d', g'⟩ := p
    intro d g hm
    simp only [List.map_cons, List.nodup_cons] at hnd
    rcases List.mem_cons.mp hm with h | h
    · rw [Prod.mk.injEq] at h
      obtain ⟨h1, h2⟩ := h
      subst h1; subst h2
      simp [lookupGroups]
    · have hne : d ≠ d' := by
        rintro rfl
        exact hnd.1 (List.mem_map_of_mem Prod.fst h)
      simp [lookupGroups, hne]
      exact ih hnd.2 d g h

theorem foldl_stepGroup_lookup (rs : List LighthouseResult)
    (m : List (String × List LighthouseResult)) (d : String) :
    lookupGroups (rs.foldl stepGroup m) d =
      lookupGroups m d ++ rs.filter (fun r => recordHostname r = some d) := by
  induction rs generalizing m with
  | nil => simp
  | cons r rest ih =>
    rw [List.foldl_cons, ih]
    unfold stepGroup
    cases hr : recordHostname r with
    | none =>
      have : (recordHostname r = some d) = False := by simp [hr]
      simp [List.filter_cons, hr]
    | some d' =>
      by_cases h : d' = d
      · subst h
        rw [lookupGroups_addToGroups_self]
        simp [List.filter_cons, hr]
      · rw [lookupGroups_addToGroups_ne _ _ _ _ (Ne.symm h)]
        simp [List.filter_cons, hr, h]

theorem foldl_stepGroup_nodup_keys (rs : List LighthouseResult)
    (m : List (String × List LighthouseResult))
    (h : (m.map Prod.fst).Nodup) :
    (((rs.foldl stepGroup m)).map Prod.fst).Nodup := by
  induction rs generalizing m with
  | nil => exact h
  | cons r rest ih =>
    rw [List.foldl_cons]
    apply ih
    unfold stepGroup
    cases recordHostname r with
    | none => exact h
    | some d => exact nodup_keys_addToGroups _ _ _ h

theorem foldl_stepGroup_nonempty (rs : List LighthouseResult)
    (m : List (String × List LighthouseResult))
    (h : ∀ p ∈ m, p.2 ≠ []) :
    ∀ p ∈ rs.foldl stepGroup m, p.2 ≠ [] := by
  induction rs generalizing m with
  | nil => exact h
  | cons r rest ih =>
    rw [List.foldl_cons]
    apply ih
    unfold stepGroup
    cases recordHostname r with
    | none => exact h
    | some d => exact nonempty_addToGroups _ _ _ h

theorem buildGroupMap_lookup (rs : List LighthouseResult) (d : String) :
    lookupGroups (buildGroupMap rs) d =
      rs.filter (fun r => recordHostname r = some d) := by
  unfold buildGroupMap
  rw [foldl_stepGroup_lookup]
  simp [lookupGroups]

theorem buildGroupMap_nodup_keys (rs : List LighthouseResult) :
    ((buildGroupMap rs).map Prod.fst).Nodup :=
  foldl_stepGroup_nodup_keys rs [] (by simp)

theorem buildGroupMap_nonempty (rs : List LighthouseResult) :
    ∀ p ∈ buildGroupMap rs, p.2 ≠ [] :=
  foldl_stepGroup_nonempty rs [] (by simp)

theorem buildGroupMap_group_eq (rs : List LighthouseResult) (d : String)
    (g : List LighthouseResult) (h : (d, g) ∈ buildGroupMap rs) :
    g = rs.filter (fun r => recordHostname r = some d) := by
  rw [eq_lookup_of_mem _ (buildGroupMap_nodup_keys rs) d g h, buildGroupMap_lookup]

theorem buildGroupMap_exists (rs : List LighthouseResult) (r : LighthouseResult)
    (d : String) (hr : r ∈ rs) (hd : recordHostname r = some d) :
    ∃ g, (d, g) ∈ buildGroupMap rs := by
  apply exists_mem_of_mem_keys
  by_contra hk
  have h1 := lookupGroups_eq_nil_of_not_mem_keys _ _ hk
  rw [buildGroupMap_lookup] at h1
  have : r ∈ rs.filter (fun x => recordHostname x = some d) :=
    List.mem_filter.mpr (by simp [hr, hd])
  rw [h1] at this
  simp at this

theorem groupSort_pairwise (grp : List LighthouseResult) :
    List.Pairwise (fun a b => createdKey b ≤ createdKey a)
      (grp.mergeSort fun a b => createdKey b - createdKey a ≤ 0) := by
  have h := @List.sorted_mergeSort LighthouseResult
    (fun a b => decide (createdKey b - createdKey a ≤ 0))
    (fun a b c hab hbc => by
      simp only [decide_eq_true_eq] at hab hbc ⊢
      omega)
    (fun a b => by
      simp only [Bool.or_eq_true, decide_eq_true_eq]
      omega)
    grp
  exact h.imp (by simp only [decide_eq_true_eq]; omega)

theorem head_bound_of_pairwise (l : List LighthouseResult)
    (h : List.Pairwise (fun a b => createdKey b ≤ createdKey a) l)
    (hd : LighthouseResult) (hh : l.head? = some hd) :
    ∀ r ∈ l, createdKey r ≤ createdKey hd := by
  cases l with
  | nil => simp at hh
  | cons x t =>
    simp only [List.head?_cons, Option.some.injEq] at hh
    subst hh
    intro r hr
    rcases List.mem_cons.mp hr with rfl | hr
    · exact le_refl _
    · exact (List.pairwise_cons.mp h).1 r hr

theorem mkGroup_lastTested_isSome (rs : List LighthouseResult)
    (hts : ∀ r ∈ rs, (r.created_at).isSome) :
    ∀ p ∈ buildGroupMap rs, (mkGroup p.1 p.2).lastTested.isSome := by
  rintro ⟨d, grp⟩ hp
  have hne : grp ≠ [] := buildGroupMap_nonempty rs _ hp
  have hlen : (grp.mergeSort fun a b => createdKey b - createdKey a ≤ 0).length = grp.length :=
    List.length_mergeSort grp
  have hne2 : (grp.mergeSort fun a b => createdKey b - createdKey a ≤ 0) ≠ [] := by
    intro hcon
    rw [hcon] at hlen
    exact hne (List.eq_nil_of_length_eq_zero hlen.symm)
  obtain ⟨hd, tl, heq⟩ := List.exists_cons_of_ne_nil hne2
  have hmem : hd ∈ grp := by
    have : hd ∈ grp.mergeSort fun a b => createdKey b - createdKey a ≤ 0 := by
      rw [heq]; exact List.mem_cons_self _ _
    exact List.mem_mergeSort.mp this
  have hrs : hd ∈ rs := by
    have := buildGroupMap_group_eq rs d grp hp
    rw [this] at hmem
    exact (List.mem_filter.mp hmem).1
  show ((grp.mergeSort fun a b => createdKey b - createdKey a ≤ 0).head?.bind
    LighthouseResult.created_at).isSome
  rw [heq]
  simp only [List.head?_cons, Option.bind_some]
  exact hts hd hrs

theorem websiteGroups_pairwise (rs : List LighthouseResult)
    (hts : ∀ r ∈ rs, (r.created_at).isSome) :
    List.Pairwise (fun g1 g2 => lastKeyInt g2 ≤ lastKeyInt g1)
      (websiteGroups rs) := by
  have hsome : ∀ g ∈ (buildGroupMap rs).map (fun p => mkGroup p.1 p.2),
      g.lastTested.isSome := by
    intro g hg
    obtain ⟨p, hp, rfl⟩ := List.mem_map.mp hg
    exact mkGroup_lastTested_isSome rs hts p hp
  have hcong :
      ((buildGroupMap rs).map fun p => mkGroup p.1 p.2).mergeSort
        (fun g1 g2 => decide (compareGroups g1 g2 ≤ 0)) =
      ((buildGroupMap rs).map fun p => mkGroup p.1 p.2).mergeSort
        (fun g1 g2 => decide (lastKeyInt g2 ≤ lastKeyInt g1)) := by
    have h := @List.map_mergeSort WebsiteGroup WebsiteGroup
      (fun g1 g2 => decide (compareGroups g1 g2 ≤ 0))
      (fun g1 g2 => decide (lastKeyInt g2 ≤ lastKeyInt g1))
      id ((buildGroupMap rs).map fun p => mkGroup p.1 p.2)
      (by
        intro a ha b hb
        obtain ⟨ta, hta⟩ := Option.isSome_iff_exists.mp (hsome a ha)
        obtain ⟨tb, htb⟩ := Option.isSome_iff_exists.mp (hsome b hb)
        simp only [id_eq, decide_eq_decide]
        unfold compareGroups lastKeyInt
        rw [hta, htb]
        simp only [Option.getD_some]
        omega)
    simpa using h
  unfold websiteGroups
  rw [hcong]
  have h := @List.sorted_mergeSort WebsiteGroup
    (fun g1 g2 => decide (lastKeyInt g2 ≤ lastKeyInt g1))
    (fun a b c hab hbc => by
      simp only [decide_eq_true_eq] at hab hbc ⊢
      omega)
    (fun a b => by
      simp only [Bool.or_eq_true, decide_eq_true_eq]
      omega)
    ((buildGroupMap rs).map fun p => mkGroup p.1 p.2)
  exact h.imp (by simp only [decide_eq_true_eq]; exact id)

/-- C6: website grouping is a deterministic function that partitions the
records with a parseable URL by exact hostname (records with malformed or
absent URLs are dropped); each group carries the representative URL taken
from its most recent record, the group's record count, the most-recent
timestamp, and its records sorted most-recent-first; the groups are ordered
by most-recent timestamp descending (the hypothesis that every record has a
store-assigned timestamp reflects the data-model invariant); grouping the
same collection twice yields identical output (reflexivity, since the
grouping is a pure function of the collection). -/
theorem claim_C6_grouping (rs : List LighthouseResult)
    (hts : ∀ r ∈ rs, (r.created_at).isSome) :
    websiteGroups rs = websiteGroups rs ∧
    ((websiteGroups rs).map WebsiteGroup.domain).Nodup ∧
    (∀ g ∈ websiteGroups rs,
      g.results.Perm (rs.filter fun r => recordHostname r = some g.domain) ∧
      g.count = (rs.filter fun r => recordHostname r = some g.domain).length ∧
      List.Pairwise (fun a b => createdKey b ≤ createdKey a) g.results ∧
      (∀ hd, g.results.head? = some hd →
        g.url = urlOrDefault hd.url g.domain ∧ g.lastTested = hd.created_at ∧
        ∀ r ∈ g.results, createdKey r ≤ createdKey hd)) ∧
    (∀ r ∈ rs, ∀ d, recordHostname r = some d →
      ∃ g ∈ websiteGroups rs, g.domain = d) ∧
    List.Pairwise (fun g1 g2 => lastKeyInt g2 ≤ lastKeyInt g1)
      (websiteGroups rs) := by
  refine ⟨rfl, ?_, ?_, ?_, websiteGroups_pairwise rs hts⟩
  · have hperm : (websiteGroups rs).Perm
        ((buildGroupMap rs).map fun p => mkGroup p.1 p.2) :=
      List.mergeSort_perm _ _
    have hmap := hperm.map WebsiteGroup.domain
    apply hmap.nodup_iff.mpr
    rw [List.map_map]
    have : ((buildGroupMap rs).map (WebsiteGroup.domain ∘ fun p => mkGroup p.1 p.2)) =
        (buildGroupMap rs).map Prod.fst := by
      apply List.map_congr_left
      intro p hp
      rfl
    rw [this]
    exact buildGroupMap_nodup_keys rs
  · intro g hg
    have hg2 : g ∈ (buildGroupMap rs).map fun p => mkGroup p.1 p.2 :=
      List.mem_mergeSort.mp hg
    obtain ⟨⟨d, grp⟩, hp, rfl⟩ := List.mem_map.mp hg2
    have hdom : (mkGroup d grp).domain = d := rfl
    have hres : (mkGroup d grp).results =
        grp.mergeSort (fun a b => createdKey b - createdKey a ≤ 0) := rfl
    have hgrp := buildGroupMap_group_eq rs d grp hp
    have hpw : List.Pairwise (fun a b => createdKey b ≤ createdKey a)
        (mkGroup d grp).results := by
      rw [hres]
      exact groupSort_pairwise grp
    refine ⟨?_, ?_, hpw, ?_⟩
    · rw [hres, hdom, ← hgrp]
      exact List.mergeSort_perm grp _
    · rw [hdom, ← hgrp]
      rfl
    · intro hd hhd
      have hu : (mkGroup d grp).url =
          match (mkGroup d grp).results.head? with
          | none => d
          | some r => urlOrDefault r.url d := rfl
      rw [hhd] at hu
      have hl : (mkGroup d grp).lastTested =
          (mkGroup d grp).results.head?.bind LighthouseResult.created_at := rfl
      rw [hhd] at hl
      simp only [Option.some_bind] at hl
      exact ⟨hu, hl, head_bound_of_pairwise _ hpw hd hhd⟩
  · intro r hr d hd
    obtain ⟨grp, hg⟩ := buildGroupMap_exists rs r d hr hd
    refine ⟨mkGroup d grp, ?_, rfl⟩
    apply List.mem_mergeSort.mpr
    exact List.mem_map.mpr ⟨(d, grp), hg, rfl⟩

/-- Closed instance of `claim_C6_grouping` at a concrete collection. -/
theorem claim_C6_witness :
    ((websiteGroups [recA, recB]).map WebsiteGroup.domain).Nodup ∧
    List.Pairwise (fun g1 g2 => lastKeyInt g2 ≤ lastKeyInt g1)
      (websiteGroups [recA, recB]) :=
  ⟨(claim_C6_grouping [recA, recB] (by decide)).2.1,
   (claim_C6_grouping [recA, recB] (by decide)).2.2.2.2⟩

end BulkLighthouse
